import Mathlib

/-!
Verification development for the `selective_magno_vit` repository.

The repository's core is `selective_magno_vit/models/selective_vit.py`, which
orchestrates three components:

* `PatchImportanceScorer` (module `patch_scorer.py`) — scores each patch of a
  line drawing by local line density;
* `SpatialThresholdSelector` (module `patch_selecter.py`) — selects a fixed
  number `k` of patches, adds positional embeddings;
* a timm Vision-Transformer backbone (external library, treated as an opaque
  collaborator with the contract of spec §6).

Only `selective_vit.py` (and the training script) are present in the source
tree; `patch_scorer.py` and `patch_selecter.py` are imported but absent, so
those two components are modelled from the specification (their definitions
carry a doc comment starting `Modelled from the spec:`).

Tensors are shallowly embedded as nested lists of rationals: a (B, C, H, W)
tensor is a `List (List (List (List ℚ)))`, a (B, N) score tensor a
`List (List ℚ)`, and so on.  Python `float` arithmetic is modelled by exact
rational arithmetic; Python `int()` truncation and `round()` are modelled
explicitly.  Randomness (weight initialization) is modelled by passing the
sampled values as explicit oracle arguments.  A Python `raise` is modelled by
returning `Except.error`.
-/

/-- A vector of rationals (one tensor axis). -/
abbrev Vec := List ℚ

/-- A matrix: e.g. a (B, N) score tensor, or an (N, D) embedding table. -/
abbrev Mat := List Vec

/-- A single image: channel × height × width. -/
abbrev Img := List Mat

/-- A batch of images: (B, C, H, W). -/
abbrev Batch := List Img

/-- Elementwise sum of two vectors (torch broadcasting-free `+` on equal shapes). -/
def vecAdd (a b : Vec) : Vec := List.zipWith (· + ·) a b

/-- Dot product of two vectors. -/
def dot (a b : Vec) : ℚ := (List.zipWith (· * ·) a b).sum

/-- A linear layer `nn.Linear`: `weight` has one row per output feature. -/
structure Linear where
  weight : Mat
  bias : Vec

/-- Application of a linear layer to a feature vector. -/
def Linear.apply (l : Linear) (v : Vec) : Vec :=
  List.zipWith (fun row b => dot row v + b) l.weight l.bias

/-- Python `int()` on a real value: truncation toward zero. -/
def pyInt (q : ℚ) : ℤ := if q < 0 then -⌊-q⌋ else ⌊q⌋

/-!
## The timm ViT backbone (external collaborator, spec §6)

The backbone produced by `timm.create_model` is modelled as a record of the
sub-components the repository code reads or replaces: `patch_embed`,
`pos_embed`, `cls_token`, `pos_drop`, `blocks`, `norm`, `head`, `embed_dim`.
The function-valued fields are opaque: the spec treats the transformer
internals as out of scope.
-/

/-- The slice of a timm Vision Transformer that `selective_vit.py` touches. -/
structure Backbone where
  patch_embed : Batch → List Mat
  pos_embed : Mat
  cls_token : Vec
  pos_drop : List Mat → List Mat
  blocks : List Mat → List Mat
  norm : List Mat → List Mat
  head : Linear
  embed_dim : ℕ

/-!
## PatchImportanceScorer

Modelled from the spec: the module `selective_magno_vit/models/patch_scorer.py`
is imported by `selective_vit.py` but is not present under `src/`.  Spec §4.1:
partition the (B,1,H,W) line drawing into non-overlapping
`patch_size × patch_size` cells; for each cell compute an aggregate density
statistic (mean absolute intensity, tolerating arbitrary real inputs and
yielding a non-negative score); flatten the patch grid row-major
(top-left to bottom-right).  No learned parameters, fully deterministic.
-/

/-- State of the scorer module: it only holds its configured patch size. -/
structure PatchImportanceScorer where
  patch_size : ℕ

/-- Modelled from the spec: mean absolute intensity of the cell at grid
position (r, c) of a single-channel image (spec §4.1's density statistic). -/
def cellMeanAbs (ps : ℕ) (img : Mat) (r c : ℕ) : ℚ :=
  ((List.range ps).flatMap (fun i =>
    (List.range ps).map (fun j => |((img.getD (r * ps + i) []).getD (c * ps + j) 0)|))).sum
    / ((ps : ℚ) * (ps : ℚ))

/-- Modelled from the spec: per-patch scores of one single-channel image,
row-major over the (H / patch_size) × (W / patch_size) patch grid. -/
def scoreImage (ps : ℕ) (img : Mat) : Vec :=
  (List.range (img.length / ps)).flatMap (fun r =>
    (List.range ((img.headD []).length / ps)).map (fun c => cellMeanAbs ps img r c))

/-- Modelled from the spec: the scorer's forward pass, (B,1,H,W) → (B, N).
The single channel of each batch element is scored independently. -/
def PatchImportanceScorer.forward (s : PatchImportanceScorer) (line : Batch) : Mat :=
  line.map (fun im => scoreImage s.patch_size (im.headD []))

/-!
## SpatialThresholdSelector

Modelled from the spec: the module `selective_magno_vit/models/patch_selecter.py`
is imported by `selective_vit.py` but is not present under `src/`.  Spec §4.2:
rank patches by an adjusted score (raw score combined with a spatial smoothing
term parameterized by `gaussian_std` — spec §9 leaves the exact kernel open and
directs implementers to treat it as a pluggable strategy, modelled here by the
`adjust` field); take, in rank order, first the patches whose adjusted score
exceeds `threshold`, then backfill with the remaining highest-ranked patches,
up to `k = max(1, round(N × patch_percentage))`; emit the chosen patch
embeddings in ascending original-index order, each with the positional
embedding of its original index offset by +1 (skipping the CLS slot) added.
Ties in adjusted score break toward the lower original index.
-/

/-- Selector state: configuration plus the pluggable spatial-smoothing
strategy derived from `gaussian_std` (spec §9 open question). -/
structure SpatialThresholdSelector where
  patch_percentage : ℚ
  threshold : ℚ
  gaussian_std : ℚ
  adjust : Vec → Vec

/-- Ranking relation on patch indices: higher adjusted score first, ties
broken toward the lower original index (spec §4.2 step 3). -/
def scoreBetter (adj : Vec) (i j : ℕ) : Prop :=
  adj.getD j 0 < adj.getD i 0 ∨ (adj.getD i 0 = adj.getD j 0 ∧ i ≤ j)

instance scoreBetterDecidable (adj : Vec) : DecidableRel (scoreBetter adj) := fun i j =>
  inferInstanceAs (Decidable (adj.getD j 0 < adj.getD i 0 ∨ (adj.getD i 0 = adj.getD j 0 ∧ i ≤ j)))

/-- Patch indices 0..N-1 sorted by decreasing adjusted score (stable in the
original index, so ties come out in increasing index order). -/
def rankDesc (adj : Vec) : List ℕ :=
  List.insertionSort (scoreBetter adj) (List.range adj.length)

/-- Modelled from the spec: `k = max(1, round(N × patch_percentage))`
(spec §4.2; the selector module itself is absent from `src/`). -/
def specK (N : ℕ) (p : ℚ) : ℕ := max 1 (round ((N : ℚ) * p)).toNat

/-- Modelled from the spec: the two-tier selection policy of spec §4.2.
Tier 1 takes ranked patches whose adjusted score exceeds the threshold;
tier 2 backfills with the remaining ranked patches; exactly `k` survive
(for `k ≤ N`), and the survivors are emitted in ascending original-index
order. -/
def selectIndices (adj : Vec) (t : ℚ) (k : ℕ) : List ℕ :=
  List.insertionSort (· ≤ ·)
    (((rankDesc adj).filter (fun i => decide (t < adj.getD i 0)) ++
      (rankDesc adj).filter (fun i => !decide (t < adj.getD i 0))).take k)

/-- The per-batch-row selection indices the selector uses (diagnostic view of
the same computation `SpatialThresholdSelector.forward` performs). -/
def SpatialThresholdSelector.selectedIndices (sel : SpatialThresholdSelector)
    (scores : Mat) : List (List ℕ) :=
  scores.map (fun row =>
    selectIndices (sel.adjust row) sel.threshold (specK row.length sel.patch_percentage))

/-- Gathering step for one batch element: map each selected original index `i`
to its patch embedding plus the positional embedding at slot `i + 1`
(slot 0 is the CLS position and is never read here). -/
def selectRow (sel : SpatialThresholdSelector) (posEmbed : Mat) (row : Vec)
    (patches : Mat) : Mat :=
  (selectIndices (sel.adjust row) sel.threshold (specK row.length sel.patch_percentage)).map
    (fun i => vecAdd (patches.getD i []) (posEmbed.getD (i + 1) []))

/-- Modelled from the spec: the selector's forward pass
(all_patches (B,N,D), pos_embed (N+1,D), scores (B,N), line drawing) ↦
selected embeddings (B,k,D).  The line drawing argument is accepted per the
spec's interface but the modelled strategy reads only the score rows. -/
def SpatialThresholdSelector.forward (sel : SpatialThresholdSelector)
    (allPatches : List Mat) (posEmbed : Mat) (scores : Mat) (_line : Batch) : List Mat :=
  List.zipWith (selectRow sel posEmbed) scores allPatches

/-!
## SelectiveMagnoViT (from `selective_vit.py`, the source authority)
-/

/-- Spec §7's name for the construction-time validation failure; the Python
code raises `ValueError` at `selective_vit.py` lines 54–57. -/
inductive ConfigurationError
  | invalidPatchPercentage
  | imgSizeNotDivisible
deriving DecidableEq

/-- Spec §7 names this error class for shape-mismatch failures of `forward`.
The repository code defines no such class; the type exists here so that the
spec's claim about `forward` can be stated. -/
inductive ShapeMismatchError
  | mk
deriving DecidableEq

/-- The `selector_config` dict of `selective_vit.py` lines 96–103: a dict in
which the keys `threshold` and `gaussian_std` may each be present or absent. -/
structure SelectorConfig where
  threshold : Option ℚ
  gaussian_std : Option ℚ

/-- The model state assembled by `SelectiveMagnoViT.__init__`. -/
structure SelectiveMagnoViT where
  patch_percentage : ℚ
  num_classes : ℕ
  img_size : ℕ
  patch_size : ℕ
  embed_dim : ℕ
  vit : Backbone
  scorer : PatchImportanceScorer
  selector : SpatialThresholdSelector
  num_patches : ℕ

/-- `SelectiveMagnoViT.__init__` (`selective_vit.py` lines 40–106).

External effects are passed as oracle arguments: `pretrainedViT` is the
result of `timm.create_model`; `mkPatchEmbed` is timm's `PatchEmbed`
constructor applied to `(img_size, patch_size, in_chans, embed_dim)`;
`posInit` supplies the entries drawn by `nn.init.trunc_normal_` for the new
positional table; `headWInit`/`headBInit` supply the fresh `nn.Linear`
parameters; `spatialAdjust` is the selector's spatial-smoothing strategy as a
function of `gaussian_std` (spec §9 leaves its exact form open).

The body mirrors the source: validate `patch_percentage` and divisibility
(raising `ValueError`, spec name `ConfigurationError`); resolve `embed_dim`
from the loaded backbone when not given; replace the backbone's
`patch_embed`, `pos_embed` (num_patches + 1 rows, freshly sampled) and
`head` (`nn.Linear(embed_dim, num_classes)`), keeping every other backbone
component; build the scorer and the selector with the config-dict defaults
`threshold = 0.3`, `gaussian_std = 0.25`. -/
def SelectiveMagnoViT.init
    (patch_percentage : ℚ) (num_classes : ℕ) (img_size : ℕ) (patch_size : ℕ)
    (pretrainedViT : Backbone)
    (selector_config : Option SelectorConfig)
    (embed_dim : Option ℕ)
    (mkPatchEmbed : ℕ → ℕ → ℕ → ℕ → (Batch → List Mat))
    (posInit : ℕ → ℕ → ℚ)
    (headWInit : ℕ → ℕ → ℚ) (headBInit : ℕ → ℚ)
    (spatialAdjust : ℚ → Vec → Vec) :
    Except ConfigurationError SelectiveMagnoViT :=
  if ¬(0 < patch_percentage ∧ patch_percentage ≤ 1) then
    Except.error ConfigurationError.invalidPatchPercentage
  else if img_size % patch_size ≠ 0 then
    Except.error ConfigurationError.imgSizeNotDivisible
  else
    let ed := embed_dim.getD pretrainedViT.embed_dim
    let num_patches := (img_size / patch_size) * (img_size / patch_size)
    let vit : Backbone :=
      ⟨mkPatchEmbed img_size patch_size 3 ed,
       (List.range (num_patches + 1)).map (fun i => (List.range ed).map (posInit i)),
       pretrainedViT.cls_token,
       pretrainedViT.pos_drop,
       pretrainedViT.blocks,
       pretrainedViT.norm,
       ⟨(List.range num_classes).map (fun i => (List.range ed).map (headWInit i)),
        (List.range num_classes).map headBInit⟩,
       pretrainedViT.embed_dim⟩
    let cfg := selector_config.getD ⟨none, none⟩
    Except.ok
      ⟨patch_percentage, num_classes, img_size, patch_size, ed, vit,
       ⟨patch_size⟩,
       ⟨patch_percentage, cfg.threshold.getD (3/10), cfg.gaussian_std.getD (1/4),
        spatialAdjust (cfg.gaussian_std.getD (1/4))⟩,
       num_patches⟩

/-- `SelectiveMagnoViT.forward` (`selective_vit.py` lines 108–159).  The body
performs steps 1–9 of the source with no shape validation of its own; the
result type allows a `ShapeMismatchError` so spec §7's claim about `forward`
can be stated against it. -/
def SelectiveMagnoViT.forward (m : SelectiveMagnoViT) (magno : Batch) (line : Batch) :
    Except ShapeMismatchError Mat :=
  -- Step 1: score patches based on line drawing density
  let patch_scores := m.scorer.forward line
  -- Step 2: extract all patches from the Magno image
  let all_patches := m.vit.patch_embed magno
  -- Step 3: select important patches (adds positional embeddings)
  let selected_patches := m.selector.forward all_patches m.vit.pos_embed patch_scores line
  -- Step 4: CLS token with its positional embedding
  let cls_token_with_pos := vecAdd m.vit.cls_token (m.vit.pos_embed.getD 0 [])
  -- Step 5: prepend the CLS token to each batch element's selected patches
  let full_sequence := selected_patches.map (fun seq => cls_token_with_pos :: seq)
  -- Step 6: dropout (identity at inference)
  let full_sequence := m.vit.pos_drop full_sequence
  -- Step 7: transformer blocks and final norm
  let x := m.vit.norm (m.vit.blocks full_sequence)
  -- Steps 8–9: CLS output through the classification head
  Except.ok (x.map (fun seq => m.vit.head.apply (seq.getD 0 [])))

/-- `SelectiveMagnoViT.get_selected_patch_indices` (`selective_vit.py`
lines 161–185): score the line drawing, compute
`k = max(1, int(N × patch_percentage))` from the score tensor's second
dimension, and return the plain top-k indices by raw score (no spatial
weighting).  `torch.topk` is modelled as the `k`-prefix of the indices ranked
by decreasing score.  -/
def SelectiveMagnoViT.get_selected_patch_indices (m : SelectiveMagnoViT)
    (line : Batch) : List (List ℕ) :=
  let patch_scores := m.scorer.forward line
  let k := (max 1 (pyInt (((patch_scores.headD []).length : ℚ) * m.patch_percentage))).toNat
  patch_scores.map (fun row => (rankDesc row).take k)

/-- Number of grid cells per side used by `get_patch_importance_map`:
`int(num_patches ** 0.5)` (exact for the perfect squares produced by
construction). -/
def SelectiveMagnoViT.gridSide (m : SelectiveMagnoViT) : ℕ := Nat.sqrt m.num_patches

/-- Row-chunking with explicit fuel, modelling `Tensor.view(-1, 1, s, s)`
applied to one batch row of length `s * s`. -/
def chunkRowsAux (s : ℕ) : ℕ → Vec → Mat
  | 0, _ => []
  | _, [] => []
  | fuel + 1, v => v.take s :: chunkRowsAux s fuel (v.drop s)

/-- Split a vector into consecutive rows of length `s`. -/
def chunkRows (s : ℕ) (v : Vec) : Mat := chunkRowsAux s v.length v

/-- `SelectiveMagnoViT.get_patch_importance_map` (`selective_vit.py`
lines 187–211): score the line drawing, then `view` the (B, N) scores as a
(B, 1, s, s) grid with `s = int(num_patches ** 0.5)`.  The reshape is
modelled per batch element (each row of length `s * s` becomes the single
channel of an `s × s` grid). -/
def SelectiveMagnoViT.get_patch_importance_map (m : SelectiveMagnoViT)
    (line : Batch) : Batch :=
  (m.scorer.forward line).map (fun row => [chunkRows m.gridSide row])

/-- `SelectiveMagnoViT.get_num_selected_patches` (`selective_vit.py`
lines 213–215): `max(1, int(num_patches * patch_percentage))`. -/
def SelectiveMagnoViT.get_num_selected_patches (m : SelectiveMagnoViT) : ℕ :=
  (max 1 (pyInt ((m.num_patches : ℚ) * m.patch_percentage))).toNat

/-!
## Concrete fixtures

Small concrete instantiations of the external oracles and of the model, used
by the witness theorems to evaluate the definitions on explicit inputs.
-/

/-- A degenerate spatial-smoothing strategy (identity adjustment): a legal
instantiation of the spec's pluggable smoothing (spec §9). -/
def idAdjust : ℚ → Vec → Vec := fun _ v => v

/-- A deterministic stand-in for the truncated-normal sampler. -/
def zeroQ : ℕ → ℕ → ℚ := fun _ _ => 0

/-- A deterministic stand-in for the fresh bias sampler. -/
def zeroQ1 : ℕ → ℚ := fun _ => 0

/-- A simple concrete patch-embedding constructor satisfying the §6 contract
shape-wise on well-formed inputs: each image row becomes one 1-dimensional
patch embedding. -/
def testPatchEmbed : ℕ → ℕ → ℕ → ℕ → (Batch → List Mat) :=
  fun _ _ _ _ => fun b => b.map (fun img => (img.headD []).map (fun r => [r.sum]))

/-- A tiny concrete pretrained backbone. -/
def testBackbone : Backbone :=
  ⟨fun b => b.map (fun _ => []), [[7], [8]], [9], id, id, id, ⟨[[1]], [0]⟩, 1⟩

/-- A concrete selector: 50% of patches, default threshold and smoothing. -/
def testSelector : SpatialThresholdSelector := ⟨1/2, 3/10, 1/4, idAdjust (1/4)⟩

/-- The model built by
`SelectiveMagnoViT.init (1/2) 2 2 1 testBackbone none (some 1) testPatchEmbed
zeroQ zeroQ zeroQ1 idAdjust`: img_size 2, patch_size 1, so 4 patches, k = 2. -/
def testModelB : SelectiveMagnoViT :=
  ⟨1/2, 2, 2, 1, 1,
   ⟨testPatchEmbed 2 1 3 1, [[0], [0], [0], [0], [0]], [9], id, id, id,
    ⟨[[0], [0]], [0, 0]⟩, 1⟩,
   ⟨1⟩, ⟨1/2, 3/10, 1/4, idAdjust (1/4)⟩, 4⟩

/-- A concrete line-drawing batch matching `testModelB`: one 1-channel 2×2
image. -/
def testLine : Batch := [[[[5, 1], [4, 2]]]]

/-- A concrete magno batch of one element whose spatial dimensions match
`testModelB`. -/
def testMagno : Batch := [[[[1, 2], [3, 4]], [[1, 2], [3, 4]], [[1, 2], [3, 4]]]]

/-- A shape-mismatched line-drawing batch: two elements (batch size 2 against
`testMagno`'s batch size 1) whose 4×4 spatial dimensions disagree with
`testModelB.img_size = 2`. -/
def testLineBad : Batch :=
  [[[[1, 0, 0, 0], [0, 1, 0, 0], [0, 0, 1, 0], [0, 0, 0, 1]]],
   [[[0, 0, 0, 1], [0, 0, 1, 0], [0, 1, 0, 0], [1, 0, 0, 0]]]]

/-!
## General helper lemmas
-/

lemma getD_mem_of_lt {α : Type} (l : List α) (b : ℕ) (d : α) (h : b < l.length) :
    l.getD b d ∈ l := by
  induction l generalizing b with
  | nil => simp at h
  | cons x xs ih =>
    cases b with
    | zero => simp [List.getD]
    | succ n =>
      simp only [List.getD_cons_succ]
      exact List.mem_cons_of_mem _ (ih n (by simpa using h))

lemma getD_map_of_lt {α β : Type} (f : α → β) (l : List α) (b : ℕ) (d : β) (d₀ : α)
    (h : b < l.length) : (l.map f).getD b d = f (l.getD b d₀) := by
  induction l generalizing b with
  | nil => simp at h
  | cons x xs ih =>
    cases b with
    | zero => simp [List.getD]
    | succ n => simpa using ih n (by simpa using h)

lemma zipWith_getD {α β γ : Type} (f : α → β → γ) (l₁ : List α) (l₂ : List β) (b : ℕ)
    (d₁ : α) (d₂ : β) (d : γ) (h₁ : b < l₁.length) (h₂ : b < l₂.length) :
    (List.zipWith f l₁ l₂).getD b d = f (l₁.getD b d₁) (l₂.getD b d₂) := by
  induction l₁ generalizing l₂ b with
  | nil => simp at h₁
  | cons x xs ih =>
    cases l₂ with
    | nil => simp at h₂
    | cons y ys =>
      cases b with
      | zero => simp [List.getD]
      | succ n => simpa using ih ys n (by simpa using h₁) (by simpa using h₂)

lemma exists_of_mem_zipWith {α β γ : Type} {f : α → β → γ} {l₁ : List α} {l₂ : List β}
    {x : γ} (h : x ∈ List.zipWith f l₁ l₂) : ∃ a ∈ l₁, ∃ b ∈ l₂, x = f a b := by
  induction l₁ generalizing l₂ with
  | nil => simp at h
  | cons a as ih =>
    cases l₂ with
    | nil => simp at h
    | cons b bs =>
      rcases List.mem_cons.mp h with h0 | h0
      · exact ⟨a, List.mem_cons_self a as, b, List.mem_cons_self b bs, h0⟩
      · rcases ih h0 with ⟨a', ha', b', hb', hx⟩
        exact ⟨a', List.mem_cons_of_mem _ ha', b', List.mem_cons_of_mem _ hb', hx⟩

/-!
## Ranking lemmas
-/

lemma rankDesc_perm (adj : Vec) : List.Perm (rankDesc adj) (List.range adj.length) :=
  List.perm_insertionSort _ _

lemma rankDesc_length (adj : Vec) : (rankDesc adj).length = adj.length := by
  simpa using (rankDesc_perm adj).length_eq

lemma mem_rankDesc (adj : Vec) (i : ℕ) : i ∈ rankDesc adj ↔ i < adj.length := by
  rw [(rankDesc_perm adj).mem_iff, List.mem_range]

lemma rankDesc_nodup (adj : Vec) : (rankDesc adj).Nodup :=
  (rankDesc_perm adj).nodup_iff.mpr (List.nodup_range _)

instance scoreBetterTotal (adj : Vec) : IsTotal ℕ (scoreBetter adj) := by
  constructor
  intro i j
  rcases lt_trichotomy (adj.getD i 0) (adj.getD j 0) with h | h | h
  · exact Or.inr (Or.inl h)
  · rcases Nat.le_total i j with hij | hij
    · exact Or.inl (Or.inr ⟨h, hij⟩)
    · exact Or.inr (Or.inr ⟨h.symm, hij⟩)
  · exact Or.inl (Or.inl h)

instance scoreBetterTrans (adj : Vec) : IsTrans ℕ (scoreBetter adj) := by
  constructor
  intro a b c hab hbc
  rcases hab with h1 | ⟨e1, le1⟩ <;> rcases hbc with h2 | ⟨e2, le2⟩
  · exact Or.inl (h2.trans h1)
  · exact Or.inl (e2 ▸ h1)
  · exact Or.inl (e1 ▸ h2)
  · exact Or.inr ⟨e1.trans e2, le1.trans le2⟩

lemma rankDesc_sorted (adj : Vec) : List.Sorted (scoreBetter adj) (rankDesc adj) :=
  List.sorted_insertionSort _ _

/-- Every index kept in the `k`-prefix of the ranking has an adjusted score at
least as high as every index outside that prefix. -/
lemma take_rankDesc_dominates (adj : Vec) (k : ℕ) {i j : ℕ}
    (hi : i ∈ (rankDesc adj).take k) (hj : j < adj.length)
    (hj2 : j ∉ (rankDesc adj).take k) :
    adj.getD j 0 ≤ adj.getD i 0 := by
  have hmem : j ∈ rankDesc adj := (mem_rankDesc adj j).mpr hj
  have hsplit : rankDesc adj = (rankDesc adj).take k ++ (rankDesc adj).drop k :=
    (List.take_append_drop k _).symm
  have hjd : j ∈ (rankDesc adj).drop k := by
    rcases List.mem_append.mp (hsplit ▸ hmem) with h | h
    · exact absurd h hj2
    · exact h
  have hp : List.Pairwise (scoreBetter adj) (rankDesc adj) := rankDesc_sorted adj
  rw [hsplit, List.pairwise_append] at hp
  rcases hp.2.2 i hi j hjd with h | ⟨h, _⟩
  · exact le_of_lt h
  · exact le_of_eq h.symm

lemma take_rankDesc_nodup (adj : Vec) (k : ℕ) : ((rankDesc adj).take k).Nodup :=
  List.Nodup.sublist (List.take_sublist _ _) (rankDesc_nodup adj)

lemma take_rankDesc_length (adj : Vec) (k : ℕ) (h : k ≤ adj.length) :
    ((rankDesc adj).take k).length = k := by
  rw [List.length_take, rankDesc_length]
  omega

lemma mem_take_rankDesc_lt (adj : Vec) (k : ℕ) {i : ℕ}
    (h : i ∈ (rankDesc adj).take k) : i < adj.length :=
  (mem_rankDesc adj i).mp (List.mem_of_mem_take h)

/-!
## Selection lemmas
-/

lemma tiers_perm (adj : Vec) (t : ℚ) :
    List.Perm
      ((rankDesc adj).filter (fun i => decide (t < adj.getD i 0)) ++
        (rankDesc adj).filter (fun i => !decide (t < adj.getD i 0)))
      (rankDesc adj) :=
  List.filter_append_perm _ _

lemma selectIndices_perm (adj : Vec) (t : ℚ) (k : ℕ) :
    List.Perm (selectIndices adj t k)
      (((rankDesc adj).filter (fun i => decide (t < adj.getD i 0)) ++
        (rankDesc adj).filter (fun i => !decide (t < adj.getD i 0))).take k) :=
  List.perm_insertionSort _ _

lemma selectIndices_length (adj : Vec) (t : ℚ) (k : ℕ) (h : k ≤ adj.length) :
    (selectIndices adj t k).length = k := by
  rw [(selectIndices_perm adj t k).length_eq, List.length_take,
    (tiers_perm adj t).length_eq, rankDesc_length]
  omega

lemma selectIndices_nodup (adj : Vec) (t : ℚ) (k : ℕ) : (selectIndices adj t k).Nodup :=
  (selectIndices_perm adj t k).nodup_iff.mpr
    (List.Nodup.sublist (List.take_sublist _ _)
      ((tiers_perm adj t).nodup_iff.mpr (rankDesc_nodup adj)))

lemma selectIndices_sorted_le (adj : Vec) (t : ℚ) (k : ℕ) :
    List.Sorted (· ≤ ·) (selectIndices adj t k) :=
  List.sorted_insertionSort _ _

lemma selectIndices_sorted_lt (adj : Vec) (t : ℚ) (k : ℕ) :
    List.Sorted (· < ·) (selectIndices adj t k) :=
  (selectIndices_sorted_le adj t k).lt_of_le (selectIndices_nodup adj t k)

lemma mem_selectIndices_lt (adj : Vec) (t : ℚ) (k : ℕ) {i : ℕ}
    (h : i ∈ selectIndices adj t k) : i < adj.length := by
  have h1 := (selectIndices_perm adj t k).mem_iff.mp h
  have h2 := (tiers_perm adj t).mem_iff.mp (List.mem_of_mem_take h1)
  exact (mem_rankDesc adj i).mp h2

/-!
## Arithmetic lemmas about the two patch-count formulas
-/

lemma pyInt_of_nonneg {q : ℚ} (h : 0 ≤ q) : pyInt q = ⌊q⌋ := by
  unfold pyInt
  rw [if_neg (not_lt.mpr h)]

lemma specK_pos (N : ℕ) (p : ℚ) : 1 ≤ specK N p := le_max_left _ _

lemma specK_le (N : ℕ) (p : ℚ) (hN : 1 ≤ N) (hp1 : p ≤ 1) : specK N p ≤ N := by
  have hmul : (N : ℚ) * p ≤ (N : ℚ) :=
    mul_le_of_le_one_right (by positivity) hp1
  have hfloor : ⌊(N : ℚ) * p + 1 / 2⌋ ≤ (N : ℤ) := by
    have : ⌊(N : ℚ) * p + 1 / 2⌋ ≤ ⌊(N : ℚ) + 1 / 2⌋ :=
      Int.floor_le_floor (by linarith)
    have heq : ⌊(N : ℚ) + 1 / 2⌋ = (N : ℤ) := by
      rw [Int.floor_eq_iff]
      constructor
      · push_cast
        linarith
      · push_cast
        linarith
    omega
  have hround : round ((N : ℚ) * p) ≤ (N : ℤ) := by
    rw [round_eq]
    exact hfloor
  unfold specK
  omega

lemma pyIntK_pos (N : ℕ) (p : ℚ) : 1 ≤ (max 1 (pyInt ((N : ℚ) * p))).toNat := by
  omega

lemma pyIntK_le (N : ℕ) (p : ℚ) (hN : 1 ≤ N) (hp0 : 0 ≤ p) (hp1 : p ≤ 1) :
    (max 1 (pyInt ((N : ℚ) * p))).toNat ≤ N := by
  have h0 : (0 : ℚ) ≤ (N : ℚ) * p := by positivity
  have hmul : (N : ℚ) * p ≤ (N : ℚ) :=
    mul_le_of_le_one_right (by positivity) hp1
  have hfloor : ⌊(N : ℚ) * p⌋ ≤ (N : ℤ) := by
    have := Int.floor_le_floor hmul
    rwa [Int.floor_natCast] at this
  rw [pyInt_of_nonneg h0]
  omega

/-!
## Chunking lemmas (for the importance-map reshape)
-/

lemma flatten_chunkRowsAux (s : ℕ) (hs : 0 < s) :
    ∀ (fuel : ℕ) (v : Vec), v.length ≤ fuel → (chunkRowsAux s fuel v).flatten = v := by
  intro fuel
  induction fuel with
  | zero =>
    intro v hv
    have : v = [] := List.eq_nil_of_length_eq_zero (Nat.le_zero.mp hv)
    subst this
    rfl
  | succ n ih =>
    intro v hv
    cases v with
    | nil => rfl
    | cons x xs =>
      have hstep : chunkRowsAux s (n + 1) (x :: xs) =
          (x :: xs).take s :: chunkRowsAux s n ((x :: xs).drop s) := rfl
      have hv' : xs.length + 1 ≤ n + 1 := by simpa using hv
      have hd : ((x :: xs).drop s).length ≤ n := by
        rw [List.length_drop]
        simp only [List.length_cons]
        omega
      rw [hstep, List.flatten_cons, ih _ hd]
      exact List.take_append_drop s (x :: xs)

lemma flatten_chunkRows (s : ℕ) (hs : 0 < s) (v : Vec) : (chunkRows s v).flatten = v :=
  flatten_chunkRowsAux s hs v.length v le_rfl

/-!
## Fixture facts
-/

/-- Constructing the model with the fixture arguments succeeds and yields
`testModelB`. -/
lemma testModelB_init :
    SelectiveMagnoViT.init (1/2) 2 2 1 testBackbone none (some 1) testPatchEmbed
        zeroQ zeroQ zeroQ1 idAdjust = Except.ok testModelB := by
  rw [SelectiveMagnoViT.init, if_neg (by norm_num), if_neg (by norm_num)]
  rfl

/-!
## Claim theorems
-/

/-- Claim C4: model construction raises a `ConfigurationError` (the spec's
name for the `ValueError` raised at `selective_vit.py` lines 54–57) if and
only if `patch_percentage` lies outside (0, 1] or `img_size` is not evenly
divisible by `patch_size`; every configuration satisfying both conditions
constructs successfully.  (`patch_size > 0` is assumed: in Python,
`patch_size = 0` would instead raise `ZeroDivisionError` at the `%`.) -/
theorem spec_C4 (p : ℚ) (nc is ps : ℕ) (pv : Backbone) (cfg : Option SelectorConfig)
    (ed : Option ℕ) (mkpe : ℕ → ℕ → ℕ → ℕ → (Batch → List Mat))
    (pi : ℕ → ℕ → ℚ) (hw : ℕ → ℕ → ℚ) (hbi : ℕ → ℚ) (sa : ℚ → Vec → Vec)
    (_hps : 0 < ps) :
    (∃ e, SelectiveMagnoViT.init p nc is ps pv cfg ed mkpe pi hw hbi sa
        = Except.error e)
      ↔ ¬(0 < p ∧ p ≤ 1) ∨ ¬(ps ∣ is) := by
  rw [SelectiveMagnoViT.init]
  by_cases hpc : 0 < p ∧ p ≤ 1
  · rw [if_neg (not_not_intro hpc)]
    by_cases hdv : is % ps = 0
    · rw [if_neg (not_not_intro hdv)]
      refine iff_of_false (by simp) ?_
      push_neg
      exact ⟨hpc, Nat.dvd_of_mod_eq_zero hdv⟩
    · rw [if_pos hdv]
      exact iff_of_true ⟨_, rfl⟩
        (Or.inr fun hdvd => hdv (Nat.mod_eq_zero_of_dvd hdvd))
  · rw [if_pos hpc]
    exact iff_of_true ⟨_, rfl⟩ (Or.inl hpc)

/-- Witness for C4 at a concrete configuration. -/
theorem spec_C4_witness :
    0 < 1 ∧
    ((∃ e, SelectiveMagnoViT.init (1/2) 2 2 1 testBackbone none (some 1) testPatchEmbed
          zeroQ zeroQ zeroQ1 idAdjust = Except.error e)
      ↔ ¬((0:ℚ) < 1/2 ∧ (1/2 : ℚ) ≤ 1) ∨ ¬(1 ∣ 2)) :=
  ⟨Nat.one_pos,
   spec_C4 (1/2) 2 2 1 testBackbone none (some 1) testPatchEmbed zeroQ zeroQ zeroQ1
     idAdjust Nat.one_pos⟩

/-- Claim C10: when `selector_config` is `None`, or is a dict missing the
`threshold` or `gaussian_std` key, the `SpatialThresholdSelector` is built
with the defaults `threshold = 0.3` and `gaussian_std = 0.25` respectively,
and always with the model's `patch_percentage` (`selective_vit.py`
lines 96–103). -/
theorem spec_C10 (p : ℚ) (nc is ps : ℕ) (pv : Backbone) (ed : Option ℕ)
    (mkpe : ℕ → ℕ → ℕ → ℕ → (Batch → List Mat))
    (pi : ℕ → ℕ → ℚ) (hw : ℕ → ℕ → ℚ) (hbi : ℕ → ℚ) (sa : ℚ → Vec → Vec) :
    (∀ m, SelectiveMagnoViT.init p nc is ps pv none ed mkpe pi hw hbi sa
        = Except.ok m →
      m.selector.patch_percentage = p ∧ m.selector.threshold = 3/10 ∧
        m.selector.gaussian_std = 1/4) ∧
    (∀ g m, SelectiveMagnoViT.init p nc is ps pv (some ⟨none, some g⟩) ed mkpe pi hw hbi sa
        = Except.ok m →
      m.selector.patch_percentage = p ∧ m.selector.threshold = 3/10 ∧
        m.selector.gaussian_std = g) ∧
    (∀ t m, SelectiveMagnoViT.init p nc is ps pv (some ⟨some t, none⟩) ed mkpe pi hw hbi sa
        = Except.ok m →
      m.selector.patch_percentage = p ∧ m.selector.threshold = t ∧
        m.selector.gaussian_std = 1/4) := by
  refine ⟨?_, ?_, ?_⟩
  · intro m h
    rw [SelectiveMagnoViT.init] at h
    split_ifs at h
    rw [Except.ok.injEq] at h
    subst h
    exact ⟨rfl, rfl, rfl⟩
  · intro g m h
    rw [SelectiveMagnoViT.init] at h
    split_ifs at h
    rw [Except.ok.injEq] at h
    subst h
    exact ⟨rfl, rfl, rfl⟩
  · intro t m h
    rw [SelectiveMagnoViT.init] at h
    split_ifs at h
    rw [Except.ok.injEq] at h
    subst h
    exact ⟨rfl, rfl, rfl⟩

/-- Witness for C10: the fixture model is built with `selector_config = None`
and indeed carries the two defaults and its own `patch_percentage`. -/
theorem spec_C10_witness :
    testModelB.selector.patch_percentage = 1/2 ∧
    testModelB.selector.threshold = 3/10 ∧
    testModelB.selector.gaussian_std = 1/4 :=
  (spec_C10 (1/2) 2 2 1 testBackbone (some 1) testPatchEmbed zeroQ zeroQ zeroQ1
    idAdjust).1 testModelB testModelB_init

/-- Claim C9: construction replaces exactly the backbone's patch-embedding
module, positional-embedding table (a fresh table of
`(img_size / patch_size)² + 1` rows filled by the truncated-normal sampler,
not inherited from the pretrained model) and classification head (a fresh
`nn.Linear` with `num_classes` outputs); every other backbone component
(`cls_token`, `pos_drop`, `blocks`, `norm`, and the backbone's own
`embed_dim` attribute) retains its pretrained value
(`selective_vit.py` lines 74–91). -/
theorem spec_C9 (p : ℚ) (nc is ps : ℕ) (pv : Backbone) (cfg : Option SelectorConfig)
    (ed : Option ℕ) (mkpe : ℕ → ℕ → ℕ → ℕ → (Batch → List Mat))
    (pi : ℕ → ℕ → ℚ) (hw : ℕ → ℕ → ℚ) (hbi : ℕ → ℚ) (sa : ℚ → Vec → Vec)
    (m : SelectiveMagnoViT)
    (h : SelectiveMagnoViT.init p nc is ps pv cfg ed mkpe pi hw hbi sa = Except.ok m) :
    m.vit.cls_token = pv.cls_token ∧
    m.vit.pos_drop = pv.pos_drop ∧
    m.vit.blocks = pv.blocks ∧
    m.vit.norm = pv.norm ∧
    m.vit.embed_dim = pv.embed_dim ∧
    m.vit.patch_embed = mkpe is ps 3 (ed.getD pv.embed_dim) ∧
    m.vit.pos_embed = (List.range ((is / ps) * (is / ps) + 1)).map
        (fun i => (List.range (ed.getD pv.embed_dim)).map (pi i)) ∧
    m.vit.pos_embed.length = (is / ps) * (is / ps) + 1 ∧
    (∀ r ∈ m.vit.pos_embed, r.length = ed.getD pv.embed_dim) ∧
    m.vit.head.weight.length = nc ∧ m.vit.head.bias.length = nc := by
  rw [SelectiveMagnoViT.init] at h
  split_ifs at h
  rw [Except.ok.injEq] at h
  subst h
  refine ⟨rfl, rfl, rfl, rfl, rfl, rfl, rfl, ?_, ?_, ?_, ?_⟩
  · simp
  · intro r hr
    rcases List.mem_map.mp hr with ⟨i, _, hi⟩
    rw [← hi]
    simp
  · simp
  · simp

/-- Witness for C9: the fixture construction keeps the pretrained
`cls_token`, `blocks`, `norm`, `pos_drop` and `embed_dim`, and installs a
fresh 5-row positional table and a 2-output head. -/
theorem spec_C9_witness :
    testModelB.vit.cls_token = testBackbone.cls_token ∧
    testModelB.vit.pos_drop = testBackbone.pos_drop ∧
    testModelB.vit.blocks = testBackbone.blocks ∧
    testModelB.vit.norm = testBackbone.norm ∧
    testModelB.vit.embed_dim = testBackbone.embed_dim ∧
    testModelB.vit.pos_embed.length = (2 / 1) * (2 / 1) + 1 ∧
    testModelB.vit.head.weight.length = 2 := by
  have h := spec_C9 (1/2) 2 2 1 testBackbone none (some 1) testPatchEmbed
    zeroQ zeroQ zeroQ1 idAdjust testModelB testModelB_init
  exact ⟨h.1, h.2.1, h.2.2.1, h.2.2.2.1, h.2.2.2.2.1, h.2.2.2.2.2.2.2.1,
    h.2.2.2.2.2.2.2.2.2.1⟩

/-- Claim C2 (amended): the number of selected patches computed by the code is
`k = max(1, int(N × patch_percentage))` — Python `int()` truncation (floor for
the non-negative product), not rounding; `get_num_selected_patches` and the
`k` used by `get_selected_patch_indices` both equal this value, `k ≥ 1`
always, and `k ≤ N` for `patch_percentage ∈ (0, 1]`
(`selective_vit.py` lines 180 and 215). -/
theorem spec_C2 (m : SelectiveMagnoViT) (line : Batch) (N : ℕ)
    (hN : 0 < N) (hnum : m.num_patches = N)
    (hp0 : 0 < m.patch_percentage) (hp1 : m.patch_percentage ≤ 1)
    (hhead : ((m.scorer.forward line).headD []).length = N)
    (hrows : ∀ row ∈ m.scorer.forward line, row.length = N) :
    m.get_num_selected_patches = (max 1 (pyInt ((N : ℚ) * m.patch_percentage))).toNat ∧
    1 ≤ m.get_num_selected_patches ∧
    m.get_num_selected_patches ≤ N ∧
    ∀ idxs ∈ m.get_selected_patch_indices line,
      idxs.length = m.get_num_selected_patches := by
  have heq : m.get_num_selected_patches
      = (max 1 (pyInt ((N : ℚ) * m.patch_percentage))).toNat := by
    unfold SelectiveMagnoViT.get_num_selected_patches
    rw [hnum]
  have hle : (max 1 (pyInt ((N : ℚ) * m.patch_percentage))).toNat ≤ N :=
    pyIntK_le N m.patch_percentage hN (le_of_lt hp0) hp1
  refine ⟨heq, ?_, ?_, ?_⟩
  · rw [heq]
    exact pyIntK_pos N m.patch_percentage
  · rw [heq]
    exact hle
  · intro idxs hi
    simp only [SelectiveMagnoViT.get_selected_patch_indices] at hi
    rcases List.mem_map.mp hi with ⟨row, hrow, hid⟩
    rw [← hid, List.length_take, rankDesc_length, hrows row hrow, hhead, heq]
    omega

/-- Counterexample for C2 as stated: with `num_patches = 4` and
`patch_percentage = 7/8`, the code computes `max(1, int(4 × 7/8)) = 3`
patches, while the claimed formula `max(1, round(4 × 7/8))` gives `4`. -/
theorem spec_C2_counterexample :
    (SelectiveMagnoViT.init (7/8) 10 8 4 testBackbone none (some 1) testPatchEmbed
        zeroQ zeroQ zeroQ1 idAdjust).map (fun m => m.get_num_selected_patches)
      = Except.ok 3 ∧
    (max 1 (round ((4 : ℚ) * (7/8)))).toNat = 4 := by
  constructor
  · rw [SelectiveMagnoViT.init, if_neg (by norm_num), if_neg (by norm_num)]
    simp only [Except.map, SelectiveMagnoViT.get_num_selected_patches, Except.ok.injEq]
    rw [pyInt_of_nonneg (by norm_num)]
    have h3 : ⌊((8 / 4 * (8 / 4) : ℕ) : ℚ) * (7 / 8)⌋ = 3 := by norm_num
    rw [h3]
    rfl
  · have h4 : round ((4 : ℚ) * (7 / 8)) = 4 := by norm_num [round_eq]
    rw [h4]
    rfl

/-- Witness for C2 (amended) at the fixture model and line drawing. -/
theorem spec_C2_witness :
    0 < 4 ∧ testModelB.num_patches = 4 ∧
    0 < testModelB.patch_percentage ∧ testModelB.patch_percentage ≤ 1 ∧
    ((testModelB.scorer.forward testLine).headD []).length = 4 ∧
    (∀ row ∈ testModelB.scorer.forward testLine, row.length = 4) ∧
    (testModelB.get_num_selected_patches
        = (max 1 (pyInt ((4 : ℚ) * testModelB.patch_percentage))).toNat ∧
      1 ≤ testModelB.get_num_selected_patches ∧
      testModelB.get_num_selected_patches ≤ 4 ∧
      ∀ idxs ∈ testModelB.get_selected_patch_indices testLine,
        idxs.length = testModelB.get_num_selected_patches) := by
  have hrows : ∀ row ∈ testModelB.scorer.forward testLine, row.length = 4 := by
    intro row hrow
    have h : row = scoreImage 1 [[5, 1], [4, 2]] := by
      simpa [PatchImportanceScorer.forward, testModelB, testLine] using hrow
    subst h
    rfl
  exact ⟨Nat.succ_pos 3, rfl, by norm_num [testModelB], by norm_num [testModelB],
    rfl, hrows,
    spec_C2 testModelB testLine 4 (Nat.succ_pos 3) rfl
      (by norm_num [testModelB]) (by norm_num [testModelB]) rfl hrows⟩

/-- Claim C7: `get_selected_patch_indices` returns, for each batch element,
`k` distinct patch indices that are top-k by raw score without any
spatial-smoothing adjustment: every returned index has a raw score at least
as high as every non-returned index (`selective_vit.py` lines 161–185;
the scorer feeding it is modelled from the spec). -/
theorem spec_C7 (m : SelectiveMagnoViT) (line : Batch) (N b : ℕ)
    (hN : 0 < N) (hp0 : 0 < m.patch_percentage) (hp1 : m.patch_percentage ≤ 1)
    (hhead : ((m.scorer.forward line).headD []).length = N)
    (hrows : ∀ row ∈ m.scorer.forward line, row.length = N)
    (hb : b < line.length) :
    ((m.get_selected_patch_indices line).getD b []).Nodup ∧
    ((m.get_selected_patch_indices line).getD b []).length
        = (max 1 (pyInt ((N : ℚ) * m.patch_percentage))).toNat ∧
    (∀ i ∈ (m.get_selected_patch_indices line).getD b [], i < N) ∧
    ∀ i ∈ (m.get_selected_patch_indices line).getD b [],
      ∀ j, j < N → j ∉ (m.get_selected_patch_indices line).getD b [] →
        ((m.scorer.forward line).getD b []).getD j 0
          ≤ ((m.scorer.forward line).getD b []).getD i 0 := by
  have hblen : b < (m.scorer.forward line).length := by
    simpa [PatchImportanceScorer.forward] using hb
  have hrowmem : (m.scorer.forward line).getD b [] ∈ m.scorer.forward line :=
    getD_mem_of_lt _ b [] hblen
  have hrowlen : ((m.scorer.forward line).getD b []).length = N :=
    hrows _ hrowmem
  have hk : (max 1 (pyInt ((N : ℚ) * m.patch_percentage))).toNat ≤ N :=
    pyIntK_le N m.patch_percentage hN (le_of_lt hp0) hp1
  have hget : (m.get_selected_patch_indices line).getD b []
      = (rankDesc ((m.scorer.forward line).getD b [])).take
          (max 1 (pyInt ((N : ℚ) * m.patch_percentage))).toNat := by
    simp only [SelectiveMagnoViT.get_selected_patch_indices]
    rw [getD_map_of_lt _ _ b _ [] hblen, hhead]
  rw [hget]
  refine ⟨take_rankDesc_nodup _ _, ?_, ?_, ?_⟩
  · rw [take_rankDesc_length _ _ (by rw [hrowlen]; exact hk)]
  · intro i hi
    have := mem_take_rankDesc_lt _ _ hi
    omega
  · intro i hi j hj hj2
    exact take_rankDesc_dominates _ _ hi (by omega) hj2

/-- Witness for C7 at the fixture model: scores are (5, 1, 4, 2), k = 2, the
returned indices are top-2 by raw score. -/
theorem spec_C7_witness :
    0 < 4 ∧ 0 < testModelB.patch_percentage ∧ testModelB.patch_percentage ≤ 1 ∧
    ((testModelB.scorer.forward testLine).headD []).length = 4 ∧
    (∀ row ∈ testModelB.scorer.forward testLine, row.length = 4) ∧
    0 < testLine.length ∧
    (((testModelB.get_selected_patch_indices testLine).getD 0 []).Nodup ∧
      ((testModelB.get_selected_patch_indices testLine).getD 0 []).length
          = (max 1 (pyInt ((4 : ℚ) * testModelB.patch_percentage))).toNat ∧
      (∀ i ∈ (testModelB.get_selected_patch_indices testLine).getD 0 [], i < 4) ∧
      ∀ i ∈ (testModelB.get_selected_patch_indices testLine).getD 0 [],
        ∀ j, j < 4 → j ∉ (testModelB.get_selected_patch_indices testLine).getD 0 [] →
          ((testModelB.scorer.forward testLine).getD 0 []).getD j 0
            ≤ ((testModelB.scorer.forward testLine).getD 0 []).getD i 0) := by
  have hrows : ∀ row ∈ testModelB.scorer.forward testLine, row.length = 4 := by
    intro row hrow
    have h : row = scoreImage 1 [[5, 1], [4, 2]] := by
      simpa [PatchImportanceScorer.forward, testModelB, testLine] using hrow
    subst h
    rfl
  exact ⟨Nat.succ_pos 3, by norm_num [testModelB], by norm_num [testModelB],
    rfl, hrows, Nat.succ_pos 0,
    spec_C7 testModelB testLine 4 0 (Nat.succ_pos 3) (by norm_num [testModelB])
      (by norm_num [testModelB]) rfl hrows (Nat.succ_pos 0)⟩

/-- Claim C6: flattening the (B, 1, H', W') output of
`get_patch_importance_map` back into a (B, num_patches) tensor yields exactly
the scorer's raw output for the same input (`selective_vit.py`
lines 187–211; the scorer is modelled from the spec). -/
theorem spec_C6 (m : SelectiveMagnoViT) (line : Batch) (hs : 0 < m.gridSide) :
    (m.get_patch_importance_map line).map (fun img => img.flatten.flatten)
      = m.scorer.forward line := by
  unfold SelectiveMagnoViT.get_patch_importance_map
  rw [List.map_map]
  calc (m.scorer.forward line).map
        ((fun img => img.flatten.flatten) ∘ fun row => [chunkRows m.gridSide row])
      = (m.scorer.forward line).map id := by
        refine List.map_congr_left ?_
        intro row _
        simp [Function.comp, flatten_chunkRows _ hs]
    _ = m.scorer.forward line := List.map_id _

/-- Witness for C6 at the fixture model and line drawing (grid side 2). -/
theorem spec_C6_witness :
    0 < testModelB.gridSide ∧
    (testModelB.get_patch_importance_map testLine).map (fun img => img.flatten.flatten)
      = testModelB.scorer.forward testLine :=
  ⟨Nat.sqrt_pos.mpr (Nat.succ_pos 3),
   spec_C6 testModelB testLine (Nat.sqrt_pos.mpr (Nat.succ_pos 3))⟩

/-- Claim C1: for every input batch — including one whose patch scores are
all zero or degenerate, and for every spatial-smoothing strategy — the
`SpatialThresholdSelector` returns exactly
`k = max(1, round(N × patch_percentage))` selected patches for every batch
element (the same `k` across the batch), never fewer (modelled from the
spec: `patch_selecter.py` is absent from `src/`). -/
theorem spec_C1 (sel : SpatialThresholdSelector) (allPatches : List Mat)
    (posEmbed : Mat) (scores : Mat) (line : Batch) (B N : ℕ)
    (_hp0 : 0 < sel.patch_percentage) (hp1 : sel.patch_percentage ≤ 1) (hN : 0 < N)
    (hrows : ∀ row ∈ scores, row.length = N)
    (hadj : ∀ row, (sel.adjust row).length = row.length)
    (hS : scores.length = B) (hP : allPatches.length = B) :
    (sel.forward allPatches posEmbed scores line).length = B ∧
    ∀ out ∈ sel.forward allPatches posEmbed scores line,
      out.length = specK N sel.patch_percentage := by
  constructor
  · rw [SpatialThresholdSelector.forward, List.length_zipWith, hS, hP, min_self]
  · intro out hout
    rcases exists_of_mem_zipWith hout with ⟨row, hrow, patches, _, hfo⟩
    rw [hfo, selectRow, List.length_map, hrows row hrow,
      selectIndices_length _ _ _ (by rw [hadj row, hrows row hrow]; exact specK_le N _ hN hp1)]

/-- Witness for C1 at an all-zero (degenerate) score batch: one batch
element, four patches, k = round(4 × 1/2) = 2. -/
theorem spec_C1_witness :
    0 < testSelector.patch_percentage ∧ testSelector.patch_percentage ≤ 1 ∧
    (0 : ℕ) < 4 ∧
    (∀ row ∈ [[(0 : ℚ), 0, 0, 0]], row.length = 4) ∧
    (∀ row, (testSelector.adjust row).length = row.length) ∧
    ((testSelector.forward [[[1], [2], [3], [4]]] [[0], [10], [20], [30], [40]]
        [[0, 0, 0, 0]] []).length = 1 ∧
      ∀ out ∈ testSelector.forward [[[1], [2], [3], [4]]] [[0], [10], [20], [30], [40]]
          [[0, 0, 0, 0]] [],
        out.length = specK 4 testSelector.patch_percentage) := by
  refine ⟨by norm_num [testSelector], by norm_num [testSelector], Nat.succ_pos 3,
    ?_, fun row => rfl, ?_⟩
  · intro row hrow
    rw [List.mem_singleton.mp hrow]
    rfl
  · refine spec_C1 testSelector [[[1], [2], [3], [4]]] [[0], [10], [20], [30], [40]]
      [[0, 0, 0, 0]] [] 1 4 (by norm_num [testSelector]) (by norm_num [testSelector])
      (Nat.succ_pos 3) ?_ (fun row => rfl) rfl rfl
    intro row hrow
    rw [List.mem_singleton.mp hrow]
    rfl

/-- Claim C8: for every batch element, the indices selected by the
`SpatialThresholdSelector` are unique and emitted in strictly increasing
original-index order; each gathered patch embedding has the positional
embedding of its original index offset by +1 added (so the CLS row 0 of the
positional table is never used, and the CLS slot is never selected)
(modelled from the spec: `patch_selecter.py` is absent from `src/`). -/
theorem spec_C8 (sel : SpatialThresholdSelector) (allPatches : List Mat)
    (posEmbed : Mat) (scores : Mat) (line : Batch) (N b : ℕ)
    (_hN : 0 < N) (_hp0 : 0 < sel.patch_percentage) (_hp1 : sel.patch_percentage ≤ 1)
    (hrows : ∀ row ∈ scores, row.length = N)
    (hadj : ∀ row, (sel.adjust row).length = row.length)
    (hb : b < (sel.forward allPatches posEmbed scores line).length) :
    ∃ idxs : List ℕ,
      idxs.Nodup ∧ List.Sorted (· < ·) idxs ∧ (∀ i ∈ idxs, i < N) ∧
      0 ∉ idxs.map (fun i => i + 1) ∧
      (sel.forward allPatches posEmbed scores line).getD b []
        = idxs.map (fun i =>
            vecAdd ((allPatches.getD b []).getD i []) (posEmbed.getD (i + 1) [])) := by
  have hb2 : b < scores.length ∧ b < allPatches.length := by
    rw [SpatialThresholdSelector.forward, List.length_zipWith] at hb
    omega
  have hrowmem : scores.getD b [] ∈ scores := getD_mem_of_lt _ b [] hb2.1
  have hrowlen : (scores.getD b []).length = N := hrows _ hrowmem
  refine ⟨selectIndices (sel.adjust (scores.getD b [])) sel.threshold
      (specK (scores.getD b []).length sel.patch_percentage), ?_, ?_, ?_, ?_, ?_⟩
  · exact selectIndices_nodup _ _ _
  · exact selectIndices_sorted_lt _ _ _
  · intro i hi
    have := mem_selectIndices_lt _ _ _ hi
    rw [hadj, hrowlen] at this
    exact this
  · simp
  · rw [SpatialThresholdSelector.forward,
      zipWith_getD (selectRow sel posEmbed) scores allPatches b [] [] [] hb2.1 hb2.2]
    rfl

/-- Witness for C8: one batch element with scores (5, 1, 4, 2): the selector
keeps indices 0 and 2 in increasing order, with positional rows 1 and 3
added. -/
theorem spec_C8_witness :
    (0:ℕ) < 4 ∧ 0 < testSelector.patch_percentage ∧ testSelector.patch_percentage ≤ 1 ∧
    (∀ row ∈ [[(5 : ℚ), 1, 4, 2]], row.length = 4) ∧
    (∀ row, (testSelector.adjust row).length = row.length) ∧
    0 < (testSelector.forward [[[1], [2], [3], [4]]] [[0], [10], [20], [30], [40]]
        [[5, 1, 4, 2]] []).length ∧
    ∃ idxs : List ℕ,
      idxs.Nodup ∧ List.Sorted (· < ·) idxs ∧ (∀ i ∈ idxs, i < 4) ∧
      0 ∉ idxs.map (fun i => i + 1) ∧
      (testSelector.forward [[[1], [2], [3], [4]]] [[0], [10], [20], [30], [40]]
          [[5, 1, 4, 2]] []).getD 0 []
        = idxs.map (fun i =>
            vecAdd (([[[(1:ℚ)], [2], [3], [4]]].getD 0 []).getD i [])
              ([[(0:ℚ)], [10], [20], [30], [40]].getD (i + 1) [])) := by
  have hrows : ∀ row ∈ [[(5 : ℚ), 1, 4, 2]], row.length = 4 := by
    intro row hrow
    rw [List.mem_singleton.mp hrow]
    rfl
  exact ⟨Nat.succ_pos 3, by norm_num [testSelector], by norm_num [testSelector],
    hrows, fun row => rfl, Nat.succ_pos 0,
    spec_C8 testSelector [[[1], [2], [3], [4]]] [[0], [10], [20], [30], [40]]
      [[5, 1, 4, 2]] [] 4 0 (Nat.succ_pos 3) (by norm_num [testSelector])
      (by norm_num [testSelector]) hrows (fun row => rfl) (Nat.succ_pos 0)⟩

/-- Claim C3 (amended): `forward` performs no shape validation of its own and
never raises a `ShapeMismatchError` — no such error class exists in the
repository and `forward`'s body (`selective_vit.py` lines 108–159) contains
no conditional raise; inputs with mismatched spatial dimensions or batch
sizes are passed straight to the scorer, selector and backbone operations. -/
theorem spec_C3 (m : SelectiveMagnoViT) (magno line : Batch) :
    ∃ y, m.forward magno line = Except.ok y :=
  ⟨_, rfl⟩

/-- Counterexample for C3 as stated: an input whose batch sizes differ
(1 magno image against 2 line drawings) and whose line-drawing spatial
dimension 4 disagrees with the configured `img_size = 2`, on which `forward`
still completes without raising any `ShapeMismatchError`. -/
theorem spec_C3_counterexample :
    testMagno.length = 1 ∧ testLineBad.length = 2 ∧ testModelB.img_size = 2 ∧
    (((testLineBad.headD []).headD []).length = 4) ∧
    (testModelB.forward testMagno testLineBad).isOk = true :=
  ⟨rfl, rfl, rfl, rfl, rfl⟩

/-- Claim C5: in the inference-mode embedding (dropout inactive, the forward
pass a pure function of the stored parameters and the inputs), two forward
calls on identical `magno_image` and `line_drawing` inputs with the identical
constructed model produce identical selected patch indices and identical
logits (`selective_vit.py` lines 108–159). -/
theorem spec_C5 (m : SelectiveMagnoViT) (magno₁ magno₂ line₁ line₂ : Batch)
    (hm : magno₁ = magno₂) (hl : line₁ = line₂) :
    m.selector.selectedIndices (m.scorer.forward line₁)
        = m.selector.selectedIndices (m.scorer.forward line₂) ∧
    m.forward magno₁ line₁ = m.forward magno₂ line₂ := by
  subst hm
  subst hl
  exact ⟨rfl, rfl⟩

/-- Witness for C5 at the fixture model and inputs. -/
theorem spec_C5_witness :
    testMagno = testMagno ∧ testLine = testLine ∧
    (testModelB.selector.selectedIndices (testModelB.scorer.forward testLine)
        = testModelB.selector.selectedIndices (testModelB.scorer.forward testLine) ∧
      testModelB.forward testMagno testLine = testModelB.forward testMagno testLine) :=
  ⟨rfl, rfl, spec_C5 testModelB testMagno testMagno testLine testLine rfl rfl⟩
